import Mathlib

/-!
Verification of the SERVMON monitoring service core against its
specification.  The Go source is shallowly embedded: each Go function that
a claim depends on is translated into an executable Lean function over
explicit state; external collaborators (the SSH transport, the SFTP walker,
the database) are passed in as oracle arguments, exactly at the interface
the Go code consumes them.
-/

namespace Servmon

/-! ### SSH client command execution (internal/ssh SSHClient.Execute) -/

/-- Outcome of `session.Run(command)` on a freshly opened sub-channel:
either the command completed with exit status 0 (stdout and stderr captured
separately), or it failed, with whatever stderr was captured. -/
inductive RunResult where
  | ok (stdout stderr : String)
  | err (stderr : String)
deriving DecidableEq, Repr

/-- The error values `SSHClient.Execute` can surface. -/
inductive ExecError where
  | notConnected
  | sessionCreateFailed
  | commandFailedStderr (stderr : String)
  | commandFailedBare
deriving DecidableEq, Repr

/-- Result of one `Execute` call. -/
inductive ExecResult where
  | success (stdout : String)
  | failure (e : ExecError)
deriving DecidableEq, Repr

/-- Shallow embedding of `SSHClient.Execute` (metrics.go:460-489).  Inputs:
the `connected` flag, whether `c.client != nil`, whether
`c.client.NewSession()` succeeds, and the run outcome of the sub-channel.
Returns the `connected` flag after the call together with the result. -/
def execute (connected clientPresent sessionOpens : Bool)
    (run : RunResult) : Bool × ExecResult :=
  if !(connected && clientPresent) then
    (connected, .failure .notConnected)
  else if !sessionOpens then
    (false, .failure .sessionCreateFailed)
  else
    match run with
    | .ok stdout _stderr => (connected, .success stdout)
    | .err stderr =>
        if stderr ≠ "" then
          (connected, .failure (.commandFailedStderr stderr))
        else
          (connected, .failure .commandFailedBare)

/-! ### Metric collector (internal/ssh MetricCollector.CollectAll) -/

/-- The snapshot record broadcast per tick (models.MetricSnapshot).
Percentages are modelled as exact rationals. -/
structure MetricSnapshot where
  serverID : Nat
  serverName : String
  cpuUsage : ℚ
  memTotal : Nat
  memUsed : Nat
  memFree : Nat
  memPercent : ℚ
  diskTotal : Nat
  diskUsed : Nat
  diskFree : Nat
  diskPercent : ℚ
  netRX : Nat
  netTX : Nat
  uptime : Nat
  timestamp : Int
deriving DecidableEq, Repr

/-- Outcome of the five independent probes a `CollectAll` call issues;
`none` models the probe returning a non-nil error. -/
structure ProbeOutcomes where
  cpu : Option ℚ
  mem : Option (Nat × Nat × Nat)
  disk : Option (Nat × Nat × Nat)
  net : Option (Nat × Nat)
  uptime : Option Nat
deriving DecidableEq, Repr

/-- Shallow embedding of `MetricCollector.CollectAll` (metrics.go:28-87).
The snapshot starts from the server id, name and sampling timestamp; each
probe's fields are filled in only when that probe succeeded, the percent
fields only when the corresponding total is positive.  The Go function ends
with `return snapshot, nil`, so the embedding always returns `.ok`. -/
def collectAll (serverID : Nat) (serverName : String) (ts : Int)
    (p : ProbeOutcomes) : Except String MetricSnapshot :=
  let s0 : MetricSnapshot :=
    { serverID := serverID, serverName := serverName, timestamp := ts
      cpuUsage := 0, memTotal := 0, memUsed := 0, memFree := 0
      memPercent := 0, diskTotal := 0, diskUsed := 0, diskFree := 0
      diskPercent := 0, netRX := 0, netTX := 0, uptime := 0 }
  let s1 := match p.cpu with
    | none => s0
    | some c => { s0 with cpuUsage := c }
  let s2 := match p.mem with
    | none => s1
    | some (t, u, f) =>
        let s := { s1 with memTotal := t, memUsed := u, memFree := f }
        if 0 < t then { s with memPercent := (u : ℚ) / (t : ℚ) * 100 } else s
  let s3 := match p.disk with
    | none => s2
    | some (t, u, f) =>
        let s := { s2 with diskTotal := t, diskUsed := u, diskFree := f }
        if 0 < t then { s with diskPercent := (u : ℚ) / (t : ℚ) * 100 } else s
  let s4 := match p.net with
    | none => s3
    | some (rx, tx) => { s3 with netRX := rx, netTX := tx }
  let s5 := match p.uptime with
    | none => s4
    | some u => { s4 with uptime := u }
  .ok s5

/-! ### Monitor worker tick (internal/monitor Worker.Run) -/

/-- The coarse host status stored in the registry. -/
inductive ServerStatus where
  | online
  | offline
  | error
deriving DecidableEq, Repr

/-- The worker-local state that one iteration of the tick loop reads and
writes: the `reconnectAttempts` counter, whether
`w.sshClient != nil && w.sshClient.IsConnected()` holds, and the last
status written to the registry. -/
structure WorkerTickState where
  reconnectAttempts : Nat
  connected : Bool
  status : ServerStatus
deriving DecidableEq, Repr

/-- External outcomes one tick may consume: whether `w.connect()` would
succeed if attempted, and whether `collector.CollectAll` returns a
snapshot. -/
structure TickOracle where
  connectOk : Bool
  collect : Option MetricSnapshot
deriving DecidableEq

/-- Observable effects of one tick. -/
structure TickEvents where
  emitted : Option MetricSnapshot
  slept30 : Bool
deriving DecidableEq

/-- Shallow embedding of one `ticker.C` iteration of `Worker.Run`
(monitor worker, lines 159-194): the reconnect ladder with
`maxReconnectAttempts = 3`, then collection and broadcast. -/
def workerTick (s : WorkerTickState) (o : TickOracle) :
    WorkerTickState × TickEvents :=
  if !s.connected then
    let a := s.reconnectAttempts + 1
    if a > 3 then
      ({ reconnectAttempts := 0, connected := s.connected, status := .error },
       { emitted := none, slept30 := true })
    else if !o.connectOk then
      ({ reconnectAttempts := a, connected := false, status := .error },
       { emitted := none, slept30 := false })
    else
      let s2 : WorkerTickState :=
        { reconnectAttempts := 0, connected := true, status := .online }
      ({ s2 with }, { emitted := o.collect, slept30 := false })
  else
    (s, { emitted := o.collect, slept30 := false })

/-! ### Interactive shell endpoint (handlers ExecuteSSHCommand) -/

/-- ASCII whitespace, as `strings.TrimSpace` treats it. -/
def isSpaceGo (c : Char) : Bool :=
  c == ' ' || c == '\t' || c == '\n' ||
  c == (Char.ofNat 11) || c == (Char.ofNat 12) || c == '\r'

/-- Embedding of `strings.TrimSpace`. -/
def trimSpace (s : String) : String :=
  String.mk (((s.data.dropWhile isSpaceGo).reverse.dropWhile isSpaceGo).reverse)

/-- Embedding of `strings.HasPrefix s pre`. -/
def hasPre (s pre : String) : Bool :=
  pre.data.isPrefixOf s.data

/-- The full command an `/ssh/exec` request actually runs: the caller
command, prefixed with `cd <cwd> && ` when the session's working directory
is non-empty (part_000:66-71). -/
def fullCommandOf (cwd cmd : String) : String :=
  if cwd ≠ "" then "cd " ++ cwd ++ " && " ++ cmd else cmd

/-- The follow-up command used to track `cd`: wrap the caller command with
the old working directory and append `&& pwd` (part_000:76-82). -/
def pwdCommandOf (cwd cmd : String) : String :=
  if cwd ≠ "" then "cd " ++ cwd ++ " && " ++ cmd ++ " && pwd"
  else cmd ++ " && pwd"

/-- Shallow embedding of `ExecuteSSHCommand` (part_000:66-104) from the
point where the pooled session is in hand.  `shell` is the remote side:
for a command string it returns `some stdout` on success, `none` on error.
Returns the session's working directory after the call and `some output`
for the 200 response, `none` for the 500 path. -/
def executeSSHCommand (shell : String → Option String) (cwd cmd : String) :
    String × Option String :=
  let output := shell (fullCommandOf cwd cmd)
  let newCwd :=
    if output.isSome && hasPre (trimSpace cmd) "cd " then
      match shell (pwdCommandOf cwd cmd) with
      | some newDir => trimSpace newDir
      | none => cwd
    else cwd
  (newCwd, output)

/-- A concrete remote shell for the `cd /tmp` / `pwd` scenario. -/
def shellTmp : String → Option String
  | "cd /tmp" => some ""
  | "cd /tmp && pwd" => some "/tmp\n"
  | _ => none

/-! ### Broadcast hub dispatch (websocket WebSocketHub.Run) -/

/-- One registered push client: its id and its bounded outbound queue
(the `send` channel, capacity 256). -/
structure HubClient where
  id : String
  send : List String
deriving DecidableEq, Repr

/-- The capacity of each client's outbound queue (part_006:178). -/
def sendCapacity : Nat := 256

/-- Non-blocking try-send into a bounded queue: the
`select { case client.send <- message: default: }` idiom.  If the queue has
room the frame is appended, otherwise it is dropped silently. -/
def trySend (msg : String) (q : List String) : List String :=
  if q.length < sendCapacity then q ++ [msg] else q

/-- Shallow embedding of the `message := <-h.broadcast` arm of
`WebSocketHub.Run` (part_006:84-92): one try-send per registered client. -/
def dispatchBroadcast (clients : List HubClient) (msg : String) :
    List HubClient :=
  clients.map fun c => { c with send := trySend msg c.send }

/-- Shallow embedding of `broadcastToRoom` (part_006:132-144): the same
try-send rule, applied to the members of one room. -/
def dispatchToRoom (room : List HubClient) (msg : String) : List HubClient :=
  room.map fun c => { c with send := trySend msg c.send }

/-! ### SFTP file operations (sftp SFTPClient) -/

/-- One remote file-system entry as the walker reports it. -/
structure SEntry where
  name : String
  path : String
  size : Int
  isDir : Bool
deriving DecidableEq, Repr

/-- One `walker.Step()` observation: either `walker.Err()` was non-nil at
this step, or an entry with its stat info. -/
inductive WalkStep where
  | err
  | entry (e : SEntry)
deriving DecidableEq, Repr

/-- The entries of a walk, error steps removed. -/
def walkEntries (steps : List WalkStep) : List SEntry :=
  steps.filterMap fun s =>
    match s with
    | .err => none
    | .entry e => some e

/-- Embedding of `strings.ToLower` (per character). -/
def lowerStr (s : String) : String :=
  String.mk (s.data.map Char.toLower)

/-- Embedding of `strings.Contains s sub`: `sub` occurs as a contiguous
run inside `s`. -/
def containsSeq (s sub : List Char) : Bool :=
  match s with
  | [] => sub.isEmpty
  | _ :: rest => sub.isPrefixOf s || containsSeq rest sub

/-- The match test of `SearchFiles` (part_007:312-317): glob-match the
base name against the pattern — a `filepath.Match` error skips the entry —
otherwise include the entry also when the lowercased name contains the
lowercased pattern.  `globMatch pattern name` models `filepath.Match`;
`none` is its `ErrBadPattern` outcome. -/
def entryMatches (globMatch : String → String → Option Bool)
    (pattern : String) (e : SEntry) : Bool :=
  match globMatch pattern e.name with
  | none => false
  | some m => m || containsSeq (lowerStr e.name).data (lowerStr pattern).data

/-- The step loop of `SearchFiles` (part_007:303-333): walk, skip error
steps, append matching entries, stop as soon as 100 results are
collected. -/
def searchLoop (pred : SEntry → Bool) :
    List WalkStep → List SEntry → List SEntry
  | [], acc => acc
  | .err :: rest, acc => searchLoop pred rest acc
  | .entry e :: rest, acc =>
      if pred e then
        let acc2 := acc ++ [e]
        if acc2.length ≥ 100 then acc2 else searchLoop pred rest acc2
      else searchLoop pred rest acc

/-- Shallow embedding of `SFTPClient.SearchFiles` (part_007:297-336). -/
def searchFiles (globMatch : String → String → Option Bool)
    (pattern : String) (steps : List WalkStep) : List SEntry :=
  searchLoop (entryMatches globMatch pattern) steps []

/-- Result record of `GetDirectorySize` (models.DirectorySizeResult). -/
structure DirectorySizeResult where
  path : String
  size : Int
  fileCount : Nat
  dirCount : Nat
deriving DecidableEq, Repr

/-- The step loop of `GetDirectorySize`: skip error steps, count
directories and files separately, sum file sizes. -/
def dirSizeLoop (steps : List WalkStep) (acc : DirectorySizeResult) :
    DirectorySizeResult :=
  match steps with
  | [] => acc
  | .err :: rest => dirSizeLoop rest acc
  | .entry e :: rest =>
      if e.isDir then
        dirSizeLoop rest { acc with dirCount := acc.dirCount + 1 }
      else
        dirSizeLoop rest
          { acc with fileCount := acc.fileCount + 1, size := acc.size + e.size }

/-- Shallow embedding of `SFTPClient.GetDirectorySize` (part_007:339-363). -/
def getDirectorySize (path : String) (steps : List WalkStep) :
    DirectorySizeResult :=
  dirSizeLoop steps { path := path, size := 0, fileCount := 0, dirCount := 0 }

/-! ### Connection pools (ssh SSHPool, sftp SFTPPool) and worker removal -/

/-- Association-list lookup, modelling a read of a Go map keyed by the
host id. -/
def lookupA {α : Type} : List (Nat × α) → Nat → Option α
  | [], _ => none
  | (k, v) :: rest, id => if k == id then some v else lookupA rest id

/-- Association-list insertion with replacement, modelling a Go map
assignment `m[id] = v`. -/
def insertA {α : Type} (l : List (Nat × α)) (k : Nat) (v : α) :
    List (Nat × α) :=
  match l with
  | [] => [(k, v)]
  | (k2, v2) :: rest =>
      if k2 == k then (k, v) :: rest else (k2, v2) :: insertA rest k v

/-- Association-list deletion, modelling `delete(m, id)`. -/
def eraseA {α : Type} (l : List (Nat × α)) (k : Nat) : List (Nat × α) :=
  l.filter fun p => !(p.1 == k)

/-- At most one entry per host id. -/
def keysNodup {α : Type} (l : List (Nat × α)) : Prop :=
  (l.map Prod.fst).Nodup

/-- The transport-pool view of one SSH client: its `connected` flag (paired
with `client != nil`, which the pool checks through it). -/
structure PoolSession where
  connected : Bool
deriving DecidableEq, Repr

/-- Shallow embedding of `SSHPool.GetClient` (metrics.go:361-381): return
the cached client when it exists and is still connected, otherwise dial a
fresh one (`connectOk` models the dial outcome) and install it under the
host id. -/
def sshGetClient (pool : List (Nat × PoolSession)) (id : Nat)
    (connectOk : Bool) : Except String (List (Nat × PoolSession) × PoolSession) :=
  match lookupA pool id with
  | some s =>
      if s.connected then .ok (pool, s)
      else if connectOk then
        .ok (insertA pool id { connected := true }, { connected := true })
      else .error "ssh dial failed"
  | none =>
      if connectOk then
        .ok (insertA pool id { connected := true }, { connected := true })
      else .error "ssh dial failed"

/-- Shallow embedding of `SSHPool.RemoveClient` (metrics.go:384-392). -/
def sshRemoveClient (pool : List (Nat × PoolSession)) (id : Nat) :
    List (Nat × PoolSession) :=
  eraseA pool id

/-- The file-transfer-pool view of one SFTP client: the connectivity of
the underlying Session, and whether `sftpClient != nil`. -/
structure PoolFileChannel where
  sshConnected : Bool
  channelOpen : Bool
deriving DecidableEq, Repr

/-- Shallow embedding of `SFTPPool.GetClient` (part_007:40-71): when a
pool entry with a non-nil `sftpClient` exists it is returned as is — the
underlying Session's connected flag is not consulted; otherwise the SSH
client is acquired from the transport pool and a fresh channel opened
(`sshOk`, `chanOk` model those two outcomes). -/
def sftpGetClient (pool : List (Nat × PoolFileChannel)) (id : Nat)
    (sshOk chanOk : Bool) :
    Except String (List (Nat × PoolFileChannel) × PoolFileChannel) :=
  let create : Except String (List (Nat × PoolFileChannel) × PoolFileChannel) :=
    if !sshOk then .error "failed to get SSH client"
    else if !chanOk then .error "failed to create SFTP client"
    else
      let c : PoolFileChannel := { sshConnected := true, channelOpen := true }
      .ok (insertA pool id c, c)
  match lookupA pool id with
  | some c => if c.channelOpen then .ok (pool, c) else create
  | none => create

/-- Shallow embedding of `SFTPPool.RemoveClient` (part_007:74-82). -/
def sftpRemoveClient (pool : List (Nat × PoolFileChannel)) (id : Nat) :
    List (Nat × PoolFileChannel) :=
  eraseA pool id

/-- The pool-related state the DELETE /servers/:id path touches: the
transport pool, the file-transfer pool, and the worker table (for each
worker whether `w.sshClient != nil`). -/
structure SystemState where
  sshPool : List (Nat × PoolSession)
  sftpPool : List (Nat × PoolFileChannel)
  workers : List (Nat × Bool)
deriving DecidableEq, Repr

/-- Shallow embedding of `Worker.Stop` (monitor worker, lines 217-222):
cancel the context, and drop the host's Session from the transport pool
when the worker holds a client.  Nothing touches the file-transfer pool. -/
def workerStop (st : SystemState) (id : Nat) (hasSshClient : Bool) :
    SystemState :=
  if hasSshClient then { st with sshPool := sshRemoveClient st.sshPool id }
  else st

/-- Shallow embedding of `WorkerPool.RemoveWorker` (monitor worker, lines
96-105). -/
def removeWorker (st : SystemState) (id : Nat) : SystemState :=
  match lookupA st.workers id with
  | some hasClient =>
      let st2 := workerStop st id hasClient
      { st2 with workers := eraseA st2.workers id }
  | none => st

/-- Shallow embedding of the pool effect of `DeleteServer`
(server.go:165-180): it only calls `monitor.Pool.RemoveWorker(id)` before
deleting the database row. -/
def deleteServer (st : SystemState) (id : Nat) : SystemState :=
  removeWorker st id

/-! ### File content endpoint (handlers ReadFileContent) -/

/-- A JSON response body of the file-content endpoint. -/
inductive RespBody where
  | err (msg : String)
  | content (path content : String) (size : Int)
deriving DecidableEq, Repr

/-- Shallow embedding of `ReadFileContent` (part_002:226-261): HTTP status
and body as a function of the query path, the SFTP-client acquisition
outcome, the `Stat` outcome (`some size`), and the whole-file read
outcome. -/
def readFileContentHandler (clientErr : Option String) (path : String)
    (stat : Option Int) (readRes : Except String String) : Nat × RespBody :=
  match clientErr with
  | some e => (500, .err e)
  | none =>
    if path == "" then (400, .err "Path is required")
    else
      match stat with
      | none => (404, .err "File not found")
      | some size =>
        if size > 20 * 1024 * 1024 then
          (400, .err "File too large (max 10MB)")
        else
          match readRes with
          | .error e => (500, .err e)
          | .ok content => (200, .content path content size)

/-- C4: every `Session.execute(cmd)` call behaves as specified: a false
connected flag yields the not-connected error; a failed sub-channel open
flips `connected` to false and errors; success returns the captured stdout
verbatim; a non-zero exit yields a command-failed error carrying stderr
when non-empty, otherwise a bare command-failed error. -/
theorem execute_error_paths (connected clientPresent sessionOpens : Bool)
    (run : RunResult) :
    (connected = false →
      execute connected clientPresent sessionOpens run =
        (false, .failure .notConnected)) ∧
    (connected = true → clientPresent = true → sessionOpens = false →
      execute connected clientPresent sessionOpens run =
        (false, .failure .sessionCreateFailed)) ∧
    (∀ stdout stderr, connected = true → clientPresent = true →
      sessionOpens = true → run = .ok stdout stderr →
      execute connected clientPresent sessionOpens run =
        (true, .success stdout)) ∧
    (∀ stderr, connected = true → clientPresent = true →
      sessionOpens = true → run = .err stderr →
      execute connected clientPresent sessionOpens run =
        (true, .failure
          (if stderr ≠ "" then .commandFailedStderr stderr
           else .commandFailedBare))) := by
  refine ⟨?_, ?_, ?_, ?_⟩
  · intro h; subst h; simp [execute]
  · intro h1 h2 h3; subst h1; subst h2; subst h3; simp [execute]
  · intro stdout stderr h1 h2 h3 h4
    subst h1; subst h2; subst h3; subst h4; simp [execute]
  · intro stderr h1 h2 h3 h4
    subst h1; subst h2; subst h3; subst h4
    by_cases he : stderr = ""
    · subst he; simp [execute]
    · simp [execute, he]

/-- Witness for `execute_error_paths` at concrete inputs. -/
theorem execute_error_paths_witness :
    execute false true true (.ok "x" "") = (false, .failure .notConnected) ∧
    execute true true true (.err "boom") =
      (true, .failure (.commandFailedStderr "boom")) := by
  refine ⟨(execute_error_paths false true true (.ok "x" "")).1 rfl, ?_⟩
  have h := (execute_error_paths true true true (.err "boom")).2.2.2 "boom"
    rfl rfl rfl rfl
  simpa using h

/-- C3: one tick of the worker loop with the session missing or
disconnected increments `reconnectAttempts`; once the counter exceeds the
limit 3 it sets status to error, resets the counter, sleeps 30 s and emits
no sample; a successful reconnect resets the counter and sets status
online; the counter stays bounded by 3 across ticks. -/
theorem workerTick_reconnect_policy (s : WorkerTickState) (o : TickOracle) :
    (s.connected = false → s.reconnectAttempts + 1 > 3 →
      workerTick s o =
        ({ reconnectAttempts := 0, connected := false, status := .error },
         { emitted := none, slept30 := true })) ∧
    (s.connected = false → s.reconnectAttempts + 1 ≤ 3 → o.connectOk = false →
      workerTick s o =
        ({ reconnectAttempts := s.reconnectAttempts + 1, connected := false,
           status := .error },
         { emitted := none, slept30 := false })) ∧
    (s.connected = false → s.reconnectAttempts + 1 ≤ 3 → o.connectOk = true →
      (workerTick s o).1.reconnectAttempts = 0 ∧
      (workerTick s o).1.status = .online ∧
      (workerTick s o).2.emitted = o.collect) ∧
    (s.reconnectAttempts ≤ 3 → (workerTick s o).1.reconnectAttempts ≤ 3) := by
  refine ⟨?_, ?_, ?_, ?_⟩
  · intro hc ha
    simp [workerTick, hc, if_pos ha]
  · intro hc ha hok
    have ha2 : ¬ (s.reconnectAttempts + 1 > 3) := by omega
    simp [workerTick, hc, ha2, hok]
  · intro hc ha hok
    have ha2 : ¬ (s.reconnectAttempts + 1 > 3) := by omega
    simp [workerTick, hc, ha2, hok]
  · intro hb
    by_cases hc : s.connected
    · simpa [workerTick, hc] using hb
    · simp only [Bool.not_eq_true] at hc
      by_cases ha : s.reconnectAttempts + 1 > 3
      · simp [workerTick, hc, if_pos ha]
      · by_cases hok : o.connectOk
        · simp [workerTick, hc, ha, hok]
        · simp only [Bool.not_eq_true] at hok
          simp [workerTick, hc, ha, hok]
          omega

/-- Witness for `workerTick_reconnect_policy`: with the counter at 3 and
the session down, the tick marks the host error, resets the counter,
sleeps and emits nothing. -/
theorem workerTick_reconnect_policy_witness :
    workerTick ⟨3, false, .online⟩ ⟨true, none⟩ =
      ({ reconnectAttempts := 0, connected := false, status := .error },
       { emitted := none, slept30 := true }) :=
  (workerTick_reconnect_policy ⟨3, false, .online⟩ ⟨true, none⟩).1 rfl
    (by decide)

/-- C5: with a non-empty working directory the executed command is
`cd <cwd> && <caller_cmd>`; when the trimmed caller command starts with
`cd ` and the wrapped command succeeds, the follow-up
`cd <old_cwd> && <caller_cmd> && pwd` runs and its trimmed stdout becomes
the new working directory; concretely, `cd /tmp` followed by `pwd` yields
output `"/tmp\n"` and working directory `/tmp`. -/
theorem executeSSHCommand_cwd (shell : String → Option String)
    (cwd cmd : String) :
    (cwd ≠ "" → fullCommandOf cwd cmd = "cd " ++ cwd ++ " && " ++ cmd) ∧
    (∀ out newDir, cwd ≠ "" → hasPre (trimSpace cmd) "cd " = true →
      shell (fullCommandOf cwd cmd) = some out →
      shell ("cd " ++ cwd ++ " && " ++ cmd ++ " && pwd") = some newDir →
      executeSSHCommand shell cwd cmd = (trimSpace newDir, some out)) ∧
    (executeSSHCommand shellTmp "" "cd /tmp" = ("/tmp", some "") ∧
      executeSSHCommand shellTmp "/tmp" "pwd" = ("/tmp", some "/tmp\n")) := by
  refine ⟨?_, ?_, by decide, by decide⟩
  · intro h; simp [fullCommandOf, h]
  · intro out newDir hc hp hout hpwd
    have hpc : pwdCommandOf cwd cmd =
        "cd " ++ cwd ++ " && " ++ cmd ++ " && pwd" := by
      simp [pwdCommandOf, hc]
    simp [executeSSHCommand, hout, hp, hpc, hpwd]

/-- A remote shell for the witness of `executeSSHCommand_cwd`: working
directory `/a`, then `cd b`. -/
def shellW : String → Option String
  | "cd /a && cd b" => some ""
  | "cd /a && cd b && pwd" => some "/a/b\n"
  | _ => none

/-- Witness for `executeSSHCommand_cwd`: from cwd `/a`, the command
`cd b` runs wrapped, and the follow-up stores `/a/b`. -/
theorem executeSSHCommand_cwd_witness :
    executeSSHCommand shellW "/a" "cd b" = ("/a/b", some "") := by
  have h := (executeSSHCommand_cwd shellW "/a" "cd b").2.1 "" "/a/b\n"
    (by decide) (by decide) (by decide) (by decide)
  simpa using h

/-- C10: `SFTPPool.GetClient` returns the cached FileChannel whenever a
pool entry with a non-nil SFTP channel exists, regardless of the
underlying Session's connected flag; only without such an entry does it
acquire the Session and open a fresh channel. -/
theorem sftpGetClient_cached (pool : List (Nat × PoolFileChannel))
    (id : Nat) (sshOk chanOk : Bool) :
    (∀ c, lookupA pool id = some c → c.channelOpen = true →
      sftpGetClient pool id sshOk chanOk = .ok (pool, c)) ∧
    (∀ c, lookupA pool id = some c → c.channelOpen = false →
      sftpGetClient pool id sshOk chanOk =
        (if !sshOk then .error "failed to get SSH client"
         else if !chanOk then .error "failed to create SFTP client"
         else .ok (insertA pool id ⟨true, true⟩, ⟨true, true⟩))) ∧
    (lookupA pool id = none →
      sftpGetClient pool id sshOk chanOk =
        (if !sshOk then .error "failed to get SSH client"
         else if !chanOk then .error "failed to create SFTP client"
         else .ok (insertA pool id ⟨true, true⟩, ⟨true, true⟩))) := by
  refine ⟨?_, ?_, ?_⟩
  · intro c hl hc; simp [sftpGetClient, hl, hc]
  · intro c hl hc; simp [sftpGetClient, hl, hc]
  · intro hl; simp [sftpGetClient, hl]

/-- Witness for `sftpGetClient_cached`: the cached channel for host 1 is
returned even though its underlying Session is disconnected and no fresh
acquisition could succeed. -/
theorem sftpGetClient_cached_witness :
    sftpGetClient [(1, ⟨false, true⟩)] 1 false false =
      .ok ([(1, ⟨false, true⟩)], ⟨false, true⟩) :=
  (sftpGetClient_cached [(1, ⟨false, true⟩)] 1 false false).1
    ⟨false, true⟩ rfl rfl

/-- C1: the dispatch loop delivers one broadcast frame to every registered
client by a non-blocking try-send into its bounded queue — appended when
there is room, silently dropped when the queue is full — so each envelope
costs at most one send attempt per client, the queue bound is preserved,
and the room fan-out follows the same rule. -/
theorem dispatchBroadcast_try_send (clients : List HubClient) (msg : String) :
    (∀ i, (dispatchBroadcast clients msg).get? i =
      (clients.get? i).map fun c =>
        { c with send :=
            if c.send.length < sendCapacity then c.send ++ [msg]
            else c.send }) ∧
    (∀ q : List String, trySend msg q = q ++ [msg] ∨ trySend msg q = q) ∧
    (∀ q : List String, ¬ q.length < sendCapacity → trySend msg q = q) ∧
    (∀ q : List String, q.length ≤ sendCapacity →
      (trySend msg q).length ≤ sendCapacity) ∧
    (∀ room : List HubClient, ∀ i, (dispatchToRoom room msg).get? i =
      (room.get? i).map fun c =>
        { c with send :=
            if c.send.length < sendCapacity then c.send ++ [msg]
            else c.send }) := by
  refine ⟨?_, ?_, ?_, ?_, ?_⟩
  · intro i
    simp [dispatchBroadcast, List.get?_map, trySend]
  · intro q
    by_cases h : q.length < sendCapacity
    · exact Or.inl (by simp [trySend, h])
    · exact Or.inr (by simp [trySend, h])
  · intro q h; simp [trySend, h]
  · intro q h
    by_cases hlt : q.length < sendCapacity
    · simp only [trySend, if_pos hlt, List.length_append, List.length_cons,
        List.length_nil]
      omega
    · simpa [trySend, hlt] using h
  · intro room i
    simp [dispatchToRoom, List.get?_map, trySend]

/-- Witness for `dispatchBroadcast_try_send`: a client with a full queue
drops the frame, a client with room receives it. -/
theorem dispatchBroadcast_try_send_witness :
    trySend "m" (List.replicate 256 "x") = List.replicate 256 "x" ∧
    (trySend "m" ["y"]).length ≤ sendCapacity := by
  refine ⟨(dispatchBroadcast_try_send [] "m").2.2.1 _ ?_,
    (dispatchBroadcast_try_send [] "m").2.2.2.1 ["y"] (by decide)⟩
  rw [List.length_replicate]
  decide

/-- C7 counterexample: a 21 MiB file is rejected with status 400, but the
error message is `"File too large (max 10MB)"`, not `"File too large"`. -/
theorem readFileContent_message_counterexample :
    readFileContentHandler none "/big.bin" (some (21 * 1024 * 1024))
        (.ok "x") = (400, .err "File too large (max 10MB)") ∧
    ("File too large (max 10MB)" : String) ≠ "File too large" := by
  exact ⟨rfl, by decide⟩

/-- C7 amended: any file larger than 20 MiB is rejected with status 400
and the message `"File too large (max 10MB)"`; files at or below the limit
are read and returned in full. -/
theorem readFileContent_size_limit (path : String) (size : Int)
    (readRes : Except String String) :
    (path ≠ "" → size > 20 * 1024 * 1024 →
      readFileContentHandler none path (some size) readRes =
        (400, .err "File too large (max 10MB)")) ∧
    (path ≠ "" → size ≤ 20 * 1024 * 1024 → ∀ content, readRes = .ok content →
      readFileContentHandler none path (some size) readRes =
        (200, .content path content size)) := by
  constructor
  · intro hp hs
    have hp2 : ¬ ((path == "") = true) := by
      simp [hp]
    simp only [readFileContentHandler]
    rw [if_neg hp2, if_pos hs]
  · intro hp hs content hr
    subst hr
    have hp2 : ¬ ((path == "") = true) := by
      simp [hp]
    have hs2 : ¬ (size > 20 * 1024 * 1024) := by omega
    simp only [readFileContentHandler]
    rw [if_neg hp2, if_neg hs2]

/-- Witness for `readFileContent_size_limit`: a 21 MiB file is rejected,
a small file is returned in full. -/
theorem readFileContent_size_limit_witness :
    readFileContentHandler none "/big.bin" (some (21 * 1024 * 1024))
        (.ok "x") = (400, .err "File too large (max 10MB)") ∧
    readFileContentHandler none "/etc/motd" (some 5) (.ok "hello") =
      (200, .content "/etc/motd" "hello" 5) :=
  ⟨(readFileContent_size_limit "/big.bin" (21 * 1024 * 1024) (.ok "x")).1
      (by decide) (by decide),
    (readFileContent_size_limit "/etc/motd" 5 (.ok "hello")).2
      (by decide) (by decide) "hello" rfl⟩

/-- C9: `CollectAll` never returns an error; the snapshot always carries
the server id, name and sampling timestamp, every field of a failed probe
stays at its zero value, each field is a function of its own probe alone,
and the percent fields are computed only when the respective total is
positive. -/
theorem collectAll_never_errors (id : Nat) (name : String) (ts : Int)
    (p : ProbeOutcomes) :
    (collectAll id name ts p).isOk = true ∧
    ∀ snap, collectAll id name ts p = .ok snap →
      snap.serverID = id ∧ snap.serverName = name ∧ snap.timestamp = ts ∧
      snap.cpuUsage = (match p.cpu with | none => 0 | some c => c) ∧
      snap.memTotal = (match p.mem with | none => 0 | some (t, _, _) => t) ∧
      snap.memUsed = (match p.mem with | none => 0 | some (_, u, _) => u) ∧
      snap.memFree = (match p.mem with | none => 0 | some (_, _, f) => f) ∧
      snap.memPercent =
        (match p.mem with
          | none => 0
          | some (t, u, _) =>
              if 0 < t then (u : ℚ) / (t : ℚ) * 100 else 0) ∧
      snap.diskTotal = (match p.disk with | none => 0 | some (t, _, _) => t) ∧
      snap.diskUsed = (match p.disk with | none => 0 | some (_, u, _) => u) ∧
      snap.diskFree = (match p.disk with | none => 0 | some (_, _, f) => f) ∧
      snap.diskPercent =
        (match p.disk with
          | none => 0
          | some (t, u, _) =>
              if 0 < t then (u : ℚ) / (t : ℚ) * 100 else 0) ∧
      snap.netRX = (match p.net with | none => 0 | some (rx, _) => rx) ∧
      snap.netTX = (match p.net with | none => 0 | some (_, tx) => tx) ∧
      snap.uptime = (match p.uptime with | none => 0 | some u => u) := by
  obtain ⟨cpu, mem, disk, net, up⟩ := p
  refine ⟨rfl, ?_⟩
  intro snap h
  rcases cpu with _ | c <;> rcases mem with _ | ⟨t, u, f⟩ <;>
    rcases disk with _ | ⟨t2, u2, f2⟩ <;> rcases net with _ | ⟨rx, tx⟩ <;>
    rcases up with _ | uu <;>
    (simp only [collectAll, Except.ok.injEq] at h; subst h;
     refine ⟨?_, ?_, ?_, ?_, ?_, ?_, ?_, ?_, ?_, ?_, ?_, ?_, ?_, ?_, ?_⟩ <;>
     first
       | rfl
       | (dsimp only; split_ifs <;> rfl))

/-- The snapshot `CollectAll` produces when only the memory probe
succeeds, with 2 of 8 MiB used. -/
def snapMemOnly : MetricSnapshot :=
  { serverID := 7, serverName := "db", timestamp := 100, cpuUsage := 0
    memTotal := 8, memUsed := 2, memFree := 6
    memPercent := (2 : ℚ) / (8 : ℚ) * 100
    diskTotal := 0, diskUsed := 0, diskFree := 0, diskPercent := 0
    netRX := 0, netTX := 0, uptime := 0 }

/-- Witness for `collectAll_never_errors`: with only the memory probe
succeeding, the snapshot is emitted with the mem fields set (25 % usage)
and the others at zero. -/
theorem collectAll_never_errors_witness :
    (collectAll 7 "db" 100 ⟨none, some (8, 2, 6), none, none, none⟩).isOk =
      true ∧
    snapMemOnly.serverID = 7 ∧ snapMemOnly.diskPercent = 0 ∧
    snapMemOnly.memPercent = 25 := by
  have h := collectAll_never_errors 7 "db" 100
    ⟨none, some (8, 2, 6), none, none, none⟩
  have h2 := h.2 snapMemOnly (by rfl)
  refine ⟨h.1, h2.1, by rw [h2.2.2.2.2.2.2.2.2.2.2.2.1], ?_⟩
  norm_num [snapMemOnly]

/-! ### Walk unfolding lemmas -/

theorem walkEntries_nil : walkEntries [] = [] := rfl

theorem walkEntries_err (rest : List WalkStep) :
    walkEntries (.err :: rest) = walkEntries rest := rfl

theorem walkEntries_entry (e : SEntry) (rest : List WalkStep) :
    walkEntries (.entry e :: rest) = e :: walkEntries rest := rfl

/-- The search loop collects, in walk order, the matching entries among
the error-free steps, stopping at 100 accumulated results. -/
theorem searchLoop_eq (pred : SEntry → Bool) :
    ∀ (steps : List WalkStep) (acc : List SEntry), acc.length < 100 →
      searchLoop pred steps acc =
        acc ++ ((walkEntries steps).filter pred).take (100 - acc.length) := by
  intro steps
  induction steps with
  | nil => intro acc h; simp [searchLoop, walkEntries_nil]
  | cons s rest ih =>
    intro acc h
    cases s with
    | err => simpa [searchLoop, walkEntries_err] using ih acc h
    | entry e =>
      by_cases hp : pred e
      · by_cases hlen : (acc ++ [e]).length ≥ 100
        · have htake : 100 - acc.length = 1 := by
            simp only [List.length_append, List.length_cons,
              List.length_nil] at hlen
            omega
          rw [searchLoop, if_pos hp, if_pos hlen, walkEntries_entry,
            List.filter_cons_of_pos hp, htake, List.take_succ_cons,
            List.take_zero]
        · have h2 : (acc ++ [e]).length < 100 := by omega
          have hlen2 : (acc ++ [e]).length = acc.length + 1 := by simp
          have harith : 100 - acc.length = (100 - (acc.length + 1)) + 1 := by
            omega
          rw [searchLoop, if_pos hp, if_neg hlen, ih (acc ++ [e]) h2,
            walkEntries_entry, List.filter_cons_of_pos hp, harith,
            List.take_succ_cons, List.append_assoc, List.singleton_append,
            hlen2]
      · rw [searchLoop, if_neg hp, ih acc h, walkEntries_entry,
          List.filter_cons_of_neg hp]

/-- A glob matcher that accepts everything (used for the 500-file
boundary instance). -/
def globAlways : String → String → Option Bool := fun _ _ => some true

/-- A walk reporting 500 matching plain files. -/
def steps500 : List WalkStep :=
  List.replicate 500 (.entry ⟨"foo1", "/foo1", 1, false⟩)

/-- C6: an entry is returned by `SearchFiles` iff it is among the first
100 error-free walked entries whose base name glob-matches the pattern or
whose lowercased name contains the lowercased pattern; with 500 matching
files exactly 100 are returned. -/
theorem searchFiles_caps_at_100 (globMatch : String → String → Option Bool)
    (pattern : String) (steps : List WalkStep) :
    searchFiles globMatch pattern steps =
      ((walkEntries steps).filter (entryMatches globMatch pattern)).take
        100 ∧
    ((∀ name, (globMatch pattern name).isSome) → ∀ e : SEntry,
      entryMatches globMatch pattern e =
        (decide (globMatch pattern e.name = some true) ||
          containsSeq (lowerStr e.name).data (lowerStr pattern).data)) ∧
    (searchFiles globAlways "foo" steps500).length = 100 := by
  refine ⟨?_, ?_, by decide⟩
  · have h := searchLoop_eq (entryMatches globMatch pattern) steps []
      (by decide)
    simpa [searchFiles] using h
  · intro hv e
    cases hm : globMatch pattern e.name with
    | none =>
      have h2 := hv e.name
      rw [hm] at h2
      simp at h2
    | some m =>
      cases m <;> simp [entryMatches, hm]

/-- Witness for `searchFiles_caps_at_100`: with a total glob matcher the
characterization applies, and a non-glob non-substring name such as `a`
still matches because the matcher accepted it. -/
theorem searchFiles_caps_at_100_witness :
    entryMatches globAlways "foo" ⟨"a", "/a", 0, false⟩ = true := by
  have h := (searchFiles_caps_at_100 globAlways "foo" []).2.1
    (fun _ => rfl) ⟨"a", "/a", 0, false⟩
  simpa [globAlways] using h

/-- The directory-size loop adds to the accumulator the file-size sum and
the file/directory counts of the error-free walked entries. -/
theorem dirSizeLoop_eq :
    ∀ (steps : List WalkStep) (acc : DirectorySizeResult),
      dirSizeLoop steps acc =
        { path := acc.path
          size := acc.size +
            (((walkEntries steps).filter fun e => !e.isDir).map
              SEntry.size).sum
          fileCount := acc.fileCount +
            ((walkEntries steps).filter fun e => !e.isDir).length
          dirCount := acc.dirCount +
            ((walkEntries steps).filter fun e => e.isDir).length } := by
  intro steps
  induction steps with
  | nil => intro acc; simp [dirSizeLoop, walkEntries_nil]
  | cons s rest ih =>
    intro acc
    cases s with
    | err => simpa [dirSizeLoop, walkEntries_err] using ih acc
    | entry e =>
      by_cases hd : e.isDir
      · rw [dirSizeLoop, if_pos hd, ih, walkEntries_entry]
        simp [List.filter_cons, hd]
        omega
      · rw [dirSizeLoop, if_neg hd, ih, walkEntries_entry]
        simp only [Bool.not_eq_true] at hd
        simp [List.filter_cons, hd]
        omega

/-- C8: `GetDirectorySize` walks the tree, sums file sizes and counts
files and directories separately, skipping walker errors; on a walk
reporting no entries it returns `{size: 0, file_count: 0, dir_count: 0}`. -/
theorem getDirectorySize_spec (path : String) (steps : List WalkStep) :
    getDirectorySize path [] =
      { path := path, size := 0, fileCount := 0, dirCount := 0 } ∧
    (getDirectorySize path steps).path = path ∧
    (getDirectorySize path steps).size =
      (((walkEntries steps).filter fun e => !e.isDir).map SEntry.size).sum ∧
    (getDirectorySize path steps).fileCount =
      ((walkEntries steps).filter fun e => !e.isDir).length ∧
    (getDirectorySize path steps).dirCount =
      ((walkEntries steps).filter fun e => e.isDir).length := by
  refine ⟨rfl, ?_, ?_, ?_, ?_⟩ <;>
    simp [getDirectorySize, dirSizeLoop_eq]

/-! ### Association-list lemmas for the pools -/

theorem lookupA_eraseA {α : Type} (l : List (Nat × α)) (k : Nat) :
    lookupA (eraseA l k) k = none := by
  induction l with
  | nil => rfl
  | cons p rest ih =>
    obtain ⟨k2, v⟩ := p
    by_cases h : k2 = k
    · subst h
      simpa [eraseA, List.filter_cons] using ih
    · have h2 : (k2 == k) = false := by simp [h]
      simp only [eraseA, List.filter_cons, h2, Bool.not_false, if_true,
        ite_true]
      simpa [lookupA, h2, eraseA] using ih

theorem mem_keys_insertA {α : Type} (l : List (Nat × α)) (k x : Nat)
    (v : α) :
    x ∈ (insertA l k v).map Prod.fst → x ∈ l.map Prod.fst ∨ x = k := by
  induction l with
  | nil =>
    intro h
    simp [insertA] at h
    exact Or.inr h
  | cons p rest ih =>
    obtain ⟨k2, v2⟩ := p
    by_cases h : k2 = k
    · subst h
      intro hm
      simp only [insertA, beq_self_eq_true, if_true, ite_true,
        List.map_cons, List.mem_cons] at hm
      rcases hm with h1 | h1
      · exact Or.inr h1
      · exact Or.inl (by simp [h1])
    · have h2 : (k2 == k) = false := by simp [h]
      intro hm
      simp only [insertA, h2, Bool.false_eq_true, if_false, ite_false,
        List.map_cons, List.mem_cons] at hm
      rcases hm with h1 | h1
      · exact Or.inl (by simp [h1])
      · rcases ih h1 with h3 | h3
        · exact Or.inl (by simp [h3])
        · exact Or.inr h3

theorem keysNodup_insertA {α : Type} (l : List (Nat × α)) (k : Nat)
    (v : α) : keysNodup l → keysNodup (insertA l k v) := by
  induction l with
  | nil => intro _; simp [insertA, keysNodup]
  | cons p rest ih =>
    obtain ⟨k2, v2⟩ := p
    intro hnd
    simp only [keysNodup, List.map_cons, List.nodup_cons] at hnd
    by_cases h : k2 = k
    · subst h
      simp only [insertA, beq_self_eq_true, if_true, ite_true]
      simpa [keysNodup] using hnd
    · have h2 : (k2 == k) = false := by simp [h]
      simp only [insertA, h2, Bool.false_eq_true, if_false, ite_false]
      simp only [keysNodup, List.map_cons, List.nodup_cons]
      refine ⟨?_, ih hnd.2⟩
      intro hmem
      rcases mem_keys_insertA rest k k2 v hmem with h3 | h3
      · exact hnd.1 h3
      · exact h h3

theorem keysNodup_eraseA {α : Type} (l : List (Nat × α)) (k : Nat) :
    keysNodup l → keysNodup (eraseA l k) := by
  intro hnd
  have hsub : List.Sublist ((eraseA l k).map Prod.fst) (l.map Prod.fst) :=
    (List.filter_sublist l).map Prod.fst
  exact hnd.sublist hsub

/-- A state with host 1 holding a Session, a FileChannel and a running
worker. -/
def stEx : SystemState :=
  { sshPool := [(1, ⟨true⟩)]
    sftpPool := [(1, ⟨true, true⟩)]
    workers := [(1, true)] }

/-- C2 counterexample: deleting host 1 removes its Worker and its Session
pool entry, but the FileChannel pool entry survives — the two pool entries
are not both dropped. -/
theorem deleteServer_keeps_filechannel :
    (deleteServer stEx 1).workers = [] ∧
    (deleteServer stEx 1).sshPool = [] ∧
    (deleteServer stEx 1).sftpPool = [(1, ⟨true, true⟩)] ∧
    lookupA (deleteServer stEx 1).sftpPool 1 = some ⟨true, true⟩ := by
  decide

/-- C2 amended: each pool is keyed by host id with at most one entry per
id (pool updates preserve key uniqueness); DELETE /servers/:id removes the
Worker and drops the Session pool entry when the worker holds a client,
but leaves the FileChannel pool untouched — only `SFTPPool.RemoveClient`,
which the delete path does not call, removes that entry. -/
theorem deleteServer_pool_effects (st : SystemState) (id : Nat) :
    (deleteServer st id).sftpPool = st.sftpPool ∧
    (∀ hasClient, lookupA st.workers id = some hasClient →
      lookupA (deleteServer st id).workers id = none ∧
      (hasClient = true →
        lookupA (deleteServer st id).sshPool id = none)) ∧
    (∀ ok res, keysNodup st.sshPool →
      sshGetClient st.sshPool id ok = .ok res → keysNodup res.1) ∧
    (∀ a b res, keysNodup st.sftpPool →
      sftpGetClient st.sftpPool id a b = .ok res → keysNodup res.1) ∧
    (keysNodup st.sshPool → keysNodup (deleteServer st id).sshPool) ∧
    lookupA (sftpRemoveClient st.sftpPool id) id = none := by
  refine ⟨?_, ?_, ?_, ?_, ?_, lookupA_eraseA st.sftpPool id⟩
  · cases hl : lookupA st.workers id with
    | none => simp [deleteServer, removeWorker, hl]
    | some w =>
      cases w <;> simp [deleteServer, removeWorker, workerStop, hl]
  · intro hasClient hl
    cases hasClient <;>
      simp [deleteServer, removeWorker, workerStop, sshRemoveClient, hl,
        lookupA_eraseA]
  · intro ok res hnd h
    cases hl : lookupA st.sshPool id with
    | some s =>
      by_cases hc : s.connected
      · rw [sshGetClient, hl] at h
        simp only [hc, if_true, ite_true, Except.ok.injEq] at h
        rw [← h]
        exact hnd
      · cases hok : ok
        · rw [sshGetClient, hl] at h
          simp [hc, hok] at h
        · rw [sshGetClient, hl] at h
          simp only [hc, hok, Bool.false_eq_true, if_false, ite_false,
            if_true, ite_true, Except.ok.injEq] at h
          rw [← h]
          exact keysNodup_insertA st.sshPool id ⟨true⟩ hnd
    | none =>
      cases hok : ok
      · rw [sshGetClient, hl] at h
        simp [hok] at h
      · rw [sshGetClient, hl] at h
        simp only [hok, if_true, ite_true, Except.ok.injEq] at h
        rw [← h]
        exact keysNodup_insertA st.sshPool id ⟨true⟩ hnd
  · intro a b res hnd h
    cases hl : lookupA st.sftpPool id with
    | some c =>
      by_cases hc : c.channelOpen
      · rw [sftpGetClient, hl] at h
        simp only [hc, if_true, ite_true, Except.ok.injEq] at h
        rw [← h]
        exact hnd
      · rw [sftpGetClient, hl] at h
        simp only [hc, Bool.false_eq_true, if_false, ite_false] at h
        cases a with
        | false => simp at h
        | true =>
          cases b with
          | false => simp at h
          | true =>
            simp only [Bool.not_true, Bool.false_eq_true, if_false,
              ite_false, Except.ok.injEq] at h
            subst h
            exact keysNodup_insertA st.sftpPool id ⟨true, true⟩ hnd
    | none =>
      rw [sftpGetClient, hl] at h
      cases a with
      | false => simp at h
      | true =>
        cases b with
        | false => simp at h
        | true =>
          simp only [Bool.not_true, Bool.false_eq_true, if_false,
            ite_false, Except.ok.injEq] at h
          subst h
          exact keysNodup_insertA st.sftpPool id ⟨true, true⟩ hnd
  · intro hnd
    cases hl : lookupA st.workers id with
    | none => simpa [deleteServer, removeWorker, hl] using hnd
    | some w =>
      cases w <;>
        simp [deleteServer, removeWorker, workerStop, sshRemoveClient,
          hl] <;>
        first
          | exact hnd
          | exact keysNodup_eraseA st.sshPool id hnd

/-- Witness for `deleteServer_pool_effects`: deleting host 1 in the
concrete state leaves the FileChannel entry and drops the Session entry. -/
theorem deleteServer_pool_effects_witness :
    (deleteServer stEx 1).sftpPool = stEx.sftpPool ∧
    lookupA (deleteServer stEx 1).sshPool 1 = none := by
  have h := deleteServer_pool_effects stEx 1
  exact ⟨h.1, (h.2.1 true rfl).2 rfl⟩

end Servmon
